import Mathlib

/-!
# go-multi-server-commander: a verification development of `main.go`

`main.go` reads a command from the command line and a server list from
`servers.yaml`, starts one goroutine per server, and each goroutine runs
`executeCommand`: dial over SSH, open a session, run the command, print a
result block.

The embedding is shallow.  Every effect of the program is an `Event`; a
function of the program returns the list of events it performs.  The answers
of the outside world (the SSH transport, the file system, the YAML decoder,
the goroutine scheduler) are explicit arguments.  Operations of the outside
world are taken to return: an answer is a value or an error, never a hang.
Text is a `String` (a sequence of Unicode code points).
-/

namespace Commander

/-! ## Data model -/

/-- Go `type Server struct`: one entry of the YAML file. -/
structure Server where
  Host : String
  Port : Int
  User : String
  Password : String
  deriving DecidableEq, Repr

/-- Go `type Config struct`: the whole YAML file. -/
structure Config where
  Servers : List Server
  deriving DecidableEq, Repr

/-- Go `time.Duration`: a count of nanoseconds. -/
abbrev Duration := Int

/-- Go `time.Second`. -/
def Second : Duration := 1000000000

/-- The `ssh.AuthMethod` values the program can build. -/
inductive AuthMethod where
  | Password (secret : String)
  deriving DecidableEq, Repr

/-- The `ssh.HostKeyCallback` values of the ssh package: a callback is named
by the constructor that made it, and `HostKeyCallback.check` runs it. -/
inductive HostKeyCallback where
  | InsecureIgnoreHostKey
  | FixedHostKey (key : String)
  deriving DecidableEq, Repr

/-- Running a host key callback on the key a remote host presents:
`none` is Go `nil` (the key is accepted), `some e` is a rejection.
`ssh.InsecureIgnoreHostKey()` is `func(...) error { return nil }`. -/
def HostKeyCallback.check : HostKeyCallback → (hostname remote key : String) → Option String
  | .InsecureIgnoreHostKey, _, _, _ => none
  | .FixedHostKey k, _, _, key => if key = k then none else some "ssh: host key mismatch"

/-- Go `ssh.ClientConfig`, the fields the program sets. -/
structure ClientConfig where
  User : String
  Auth : List AuthMethod
  HostKeyCallback : HostKeyCallback
  Timeout : Duration
  deriving DecidableEq, Repr

/-- The answer to a request that returns an object or an error: Go
`(obj, nil)` is `ok handle`, Go `(nil, err)` is `error` with the text of
`err.Error()`. -/
inductive Answer where
  | ok (handle : Nat)
  | error (err : String)
  deriving DecidableEq, Repr

/-- One effect of the program: a call to the outside world together with
what the outside world returned. -/
inductive Event where
  /-- One write to standard output (`fmt.Printf`, `fmt.Println`). -/
  | stdout (text : String)
  /-- One message handed to the standard logger (`log.Printf`, `log.Fatalf`),
  which writes it to standard error behind a date and time. -/
  | log (text : String)
  /-- Call `os.ReadFile(name)`. -/
  | readFile (name : String)
  /-- Entry into `executeCommand(server, command)`. -/
  | call (server : Server) (command : String)
  /-- Call `ssh.Dial(network, addr, config)`, and its result. -/
  | dial (network addr : String) (config : ClientConfig) (result : Answer)
  /-- Call `client.NewSession()` on the client with this handle, and its result. -/
  | newSession (client : Nat) (result : Answer)
  /-- Call `session.CombinedOutput(command)` on the session with this
  handle, and the bytes and the error it returned. -/
  | combinedOutput (session : Nat) (command : String) (output : String) (err : Option String)
  /-- Call `session.Close()`. -/
  | closeSession (session : Nat)
  /-- Call `client.Close()`. -/
  | closeClient (client : Nat)
  deriving DecidableEq, Repr

/-- What the SSH transport answers to the three requests of one
`executeCommand` invocation: `ssh.Dial`, `client.NewSession`, and
`session.CombinedOutput`, which returns the bytes `output` and the error
`runErr` (`none` is Go `nil`). -/
structure Response where
  dial : Answer
  newSession : Answer
  output : String
  runErr : Option String
  deriving DecidableEq, Repr

/-! ## Library functions used by the program -/

/-- Go `unicode.IsSpace`: the Latin-1 cases `\t \n \v \f \r`, space, U+0085,
U+00A0, and above Latin-1 the `White_Space` table. -/
def isSpace (c : Char) : Bool :=
  let r := c.toNat
  (0x09 ≤ r && r ≤ 0x0D) || r == 0x20 || r == 0x85 || r == 0xA0 ||
  r == 0x1680 || (0x2000 ≤ r && r ≤ 0x200A) || r == 0x2028 || r == 0x2029 ||
  r == 0x202F || r == 0x205F || r == 0x3000

/-- Go `strings.TrimSpace`: the string without its leading and trailing
white space, as defined by `unicode.IsSpace`. -/
def TrimSpace (s : String) : String :=
  String.mk (((s.data.dropWhile isSpace).reverse.dropWhile isSpace).reverse)

/-- The verb `%d` of `fmt` on an `int`: decimal digits, with a minus sign
for a negative number. -/
def fmtInt : Int → String
  | Int.ofNat n => Nat.repr n
  | Int.negSucc n => "-" ++ Nat.repr (n + 1)

/-! ## `executeCommand` -/

/-- Leaving a Go function: the deferred calls run, last registered first.
`defers` holds them in that order. -/
def returnWith (trace defers : List Event) : List Event :=
  trace ++ defers

/-- Go `func executeCommand(server Server, command string)`, against the
answers `r` of the transport. -/
def executeCommand (r : Response) (server : Server) (command : String) : List Event :=
  let clientConfig : ClientConfig :=
    { User := server.User
      Auth := [AuthMethod.Password server.Password]
      HostKeyCallback := HostKeyCallback.InsecureIgnoreHostKey
      Timeout := 10 * Second }
  let addr := server.Host ++ ":" ++ fmtInt server.Port
  let t0 := [Event.dial "tcp" addr clientConfig r.dial]
  match r.dial with
  | .error err =>
    returnWith (t0 ++ [Event.log ("--- [" ++ server.Host ++ "] 接続失敗 ---\nError: " ++ err ++ "\n")]) []
  | .ok client =>
    let d1 := [Event.closeClient client]
    let t1 := t0 ++ [Event.newSession client r.newSession]
    match r.newSession with
    | .error err =>
      returnWith (t1 ++ [Event.log ("--- [" ++ server.Host ++ "] セッション作成失敗 ---\nError: " ++ err ++ "\n")]) d1
    | .ok session =>
      let d2 := Event.closeSession session :: d1
      let output := r.output
      let t2 := t1 ++ [Event.combinedOutput session command output r.runErr]
      let t3 := t2 ++ [Event.stdout ("--- [Result from " ++ server.Host ++ "] ---\n")]
      let t4 :=
        match r.runErr with
        | some err =>
          t3 ++ [Event.stdout "Status: Command Failed\n", Event.stdout ("Error: " ++ err ++ "\n")]
        | none =>
          t3 ++ [Event.stdout "Status: OK\n"]
      returnWith
        (t4 ++ [Event.stdout (TrimSpace output ++ "\n"), Event.stdout ("---" ++ "\n")]) d2

/-! ## `main` -/

/-- The body of `go func(s Server) { defer wg.Done(); executeCommand(s, commandToRun) }(server)`. -/
def goroutine (r : Response) (s : Server) (commandToRun : String) : List Event :=
  Event.call s commandToRun :: executeCommand r s commandToRun

/-- The loop `for _, server := range config.Servers`: one goroutine per
element, in list order; `transport i` answers the goroutine of element `i`. -/
def spawn (transport : Nat → Response) (commandToRun : String) :
    Nat → List Server → List (List Event)
  | _, [] => []
  | i, server :: rest =>
    goroutine (transport i) server commandToRun :: spawn transport commandToRun (i + 1) rest

/-- The goroutines run one after the other; the events of the `k`-th are
tagged `g + k`. -/
def sequential : Nat → List (List Event) → List (Nat × Event)
  | _, [] => []
  | g, t :: ts => t.map (fun e => (g, e)) ++ sequential (g + 1) ts

/-- The goroutines run concurrently until all are done (`wg.Wait()`).  The
scheduler is a list of choices: choice `k` lets goroutine `k % n` perform its
next event, if it has one left; when the choices are used up the goroutines
finish one after the other.  An event of goroutine `i` is tagged `i + 1`;
tag `0` is the main goroutine. -/
def interleave : List Nat → List (List Event) → List (Nat × Event)
  | [], tasks => sequential 1 tasks
  | k :: ks, tasks =>
    match tasks.getD (k % tasks.length) [] with
    | e :: rest =>
      (k % tasks.length + 1, e) :: interleave ks (tasks.set (k % tasks.length) rest)
    | [] => interleave ks tasks

/-- The interleavings of the goroutines: a trace that takes, at each step,
the next event of some goroutine that has one left, until none has. -/
inductive Merge : List (List Event) → List (Nat × Event) → Prop where
  | done (tasks : List (List Event)) (h : ∀ t ∈ tasks, t = []) : Merge tasks []
  | step (tasks : List (List Event)) (i : Nat) (e : Event) (rest : List Event)
      (t : List (Nat × Event)) (h : tasks.getD i [] = e :: rest)
      (hrest : Merge (tasks.set i rest) t) : Merge tasks ((i + 1, e) :: t)

/-- The outside world of one run of the program. -/
structure World where
  /-- Go `os.Args`. -/
  Args : List String
  /-- Go `os.ReadFile`. -/
  readFile : String → Except String String
  /-- Go `yaml.Unmarshal` into a `Config`. -/
  unmarshal : String → Except String Config
  /-- The answers of the SSH transport to the goroutine of `Servers[i]`. -/
  transport : Nat → Response
  /-- The choices of the goroutine scheduler. -/
  schedule : List Nat

/-- One run of the program: its events, tagged by goroutine, and the exit
status of the process. -/
structure Run where
  trace : List (Nat × Event)
  exitCode : Nat
  deriving DecidableEq, Repr

/-- Go `func main()`. -/
def main (w : World) : Run :=
  if w.Args.length < 2 then
    { trace :=
        [ (0, Event.stdout ("使用法: go run run-command.go \"<実行したいコマンド>\"" ++ "\n")),
          (0, Event.stdout ("例: go run run-command.go \"hostname\"" ++ "\n")),
          (0, Event.stdout ("例: go run run-command.go \"ls -l /tmp\"" ++ "\n")) ]
      exitCode := 1 }
  else
    let commandToRun := w.Args.getD 1 ""
    let t0 := [(0, Event.readFile "servers.yaml")]
    match w.readFile "servers.yaml" with
    | .error err =>
      { trace := t0 ++ [(0, Event.log ("YAMLファイルの読み込みに失敗しました: " ++ err))]
        exitCode := 1 }
    | .ok yamlFile =>
      match w.unmarshal yamlFile with
      | .error err =>
        { trace := t0 ++ [(0, Event.log ("YAMLの解析に失敗しました: " ++ err))]
          exitCode := 1 }
      | .ok config =>
        { trace := t0 ++ interleave w.schedule (spawn w.transport commandToRun 0 config.Servers)
          exitCode := 0 }

/-! ## Observations on a trace -/

/-- The text written to standard output by an event. -/
def Event.stdoutText : Event → Option String
  | .stdout text => some text
  | _ => none

/-- The messages handed to the logger by an event. -/
def Event.logText : Event → Option String
  | .log text => some text
  | _ => none

/-- The arguments of an `executeCommand` invocation. -/
def Event.callArgs : Event → Option (Server × String)
  | .call server command => some (server, command)
  | _ => none

/-- Whether an event is a connection attempt. -/
def Event.isDial : Event → Bool
  | .dial _ _ _ _ => true
  | _ => false

/-- The timeout an event passes to the transport, if it passes one. -/
def Event.timeout : Event → Option Duration
  | .dial _ _ config _ => some config.Timeout
  | _ => none

/-- The request of a connection attempt: network, address and client
configuration handed to `ssh.Dial`. -/
def Event.dialRequest : Event → Option (String × String × ClientConfig)
  | .dial network addr config _ => some (network, addr, config)
  | _ => none

/-- The command string handed to `session.CombinedOutput`. -/
def Event.ranCommand : Event → Option String
  | .combinedOutput _ command _ _ => some command
  | _ => none

/-- The writes to standard output of a list of events, in order. -/
def stdoutOf (t : List Event) : List String :=
  t.filterMap Event.stdoutText

/-- The log messages of a list of events, in order. -/
def logOf (t : List Event) : List String :=
  t.filterMap Event.logText

/-- The events of goroutine `g` in a tagged trace, in order. -/
def project (g : Nat) (t : List (Nat × Event)) : List Event :=
  (t.filter (fun p => p.1 == g)).map Prod.snd

/-- The events of a tagged trace, without the tags. -/
def untag (t : List (Nat × Event)) : List Event :=
  t.map Prod.snd

/-- Whether an event is a `client.Close()`. -/
def Event.isCloseClient : Event → Bool
  | .closeClient _ => true
  | _ => false

/-- Whether an event is a `session.Close()`. -/
def Event.isCloseSession : Event → Bool
  | .closeSession _ => true
  | _ => false

/-- Whether an event is a `client.NewSession()`. -/
def Event.isNewSession : Event → Bool
  | .newSession _ _ => true
  | _ => false

/-- The connections and sessions that are open, by handle. -/
structure Resources where
  clients : List Nat
  sessions : List Nat
  deriving DecidableEq, Repr

/-- The effect of one event on the open connections and sessions: a
successful `Dial` or `NewSession` opens the object it returns, a `Close`
closes its receiver. -/
def Resources.step (R : Resources) : Event → Resources
  | .dial _ _ _ (.ok client) => { R with clients := client :: R.clients }
  | .newSession _ (.ok session) => { R with sessions := session :: R.sessions }
  | .closeSession session => { R with sessions := R.sessions.erase session }
  | .closeClient client => { R with clients := R.clients.erase client }
  | _ => R

/-- The open connections and sessions after a list of events. -/
def Resources.after (R : Resources) (t : List Event) : Resources :=
  t.foldl Resources.step R

/-- Whether the transport lets `executeCommand` reach the command: both the
connection and the session are set up. -/
def Response.connects (r : Response) : Bool :=
  match r.dial, r.newSession with
  | .ok _, .ok _ => true
  | _, _ => false

/-- The result block of one target, as the list of writes that make it up. -/
def resultBlock (host : String) (r : Response) : List String :=
  ["--- [Result from " ++ host ++ "] ---\n"] ++
  (match r.runErr with
   | some err => ["Status: Command Failed\n", "Error: " ++ err ++ "\n"]
   | none => ["Status: OK\n"]) ++
  [TrimSpace r.output ++ "\n", "---\n"]

/-- The log message of one target whose connection or session fails, if it
does. -/
def failureLog (host : String) (r : Response) : List String :=
  match r.dial, r.newSession with
  | .error err, _ => ["--- [" ++ host ++ "] 接続失敗 ---\nError: " ++ err ++ "\n"]
  | .ok _, .error err => ["--- [" ++ host ++ "] セッション作成失敗 ---\nError: " ++ err ++ "\n"]
  | .ok _, .ok _ => []

/-- The error `session.CombinedOutput` returns in `golang.org/x/crypto/ssh`
(through `Run` and `Wait`) when the command has run, the copying of its
output had no problem, and the remote end has reported the exit status
`status`: `nil` for status 0, an `*ssh.ExitError` otherwise, whose text is
`Process exited with status N`.  The package is a dependency of the program,
not part of its source; this is the contract its documentation states
("The returned error is nil if the command runs, has no problems copying
stdin, stdout, and stderr, and exits with a zero exit status ... If the
command completes unsuccessfully ... the error is of type *ExitError"). -/
def exitError (status : Nat) : Option String :=
  if status = 0 then none else some ("Process exited with status " ++ Nat.repr status)

/-- The answers of the transport when connection and session are set up and
the command runs to its end with no transport problem, producing `output`
and exiting with `status`. -/
def cleanRun (client session : Nat) (output : String) (status : Nat) : Response :=
  { dial := .ok client, newSession := .ok session, output := output, runErr := exitError status }

/-- The value of a decimal digit character. -/
def digitValue (c : Char) : Nat := c.toNat - 48

/-- The number a list of decimal digits denotes, most significant first. -/
def readNat (ds : List Char) : Nat :=
  ds.foldl (fun acc c => acc * 10 + digitValue c) 0

/-- The integer a decimal numeral denotes: an optional minus sign, then digits. -/
def readInt : List Char → Int
  | '-' :: ds => - (readNat ds : Int)
  | ds => (readNat ds : Int)

/-- The `ssh.ClientConfig` that `executeCommand` builds for a server. -/
def clientConfigOf (server : Server) : ClientConfig :=
  { User := server.User
    Auth := [AuthMethod.Password server.Password]
    HostKeyCallback := HostKeyCallback.InsecureIgnoreHostKey
    Timeout := 10 * Second }

/-! ## Concrete runs -/

/-- A server that answers. -/
def serverA : Server := { Host := "10.0.0.1", Port := 22, User := "admin", Password := "secret" }

/-- A server configured with a port nothing listens on. -/
def serverB : Server := { Host := "10.0.0.2", Port := 2222, User := "admin", Password := "secret" }

/-- A server configured with a wrong password. -/
def serverC : Server := { Host := "10.0.0.3", Port := 22, User := "admin", Password := "wrong" }

/-- The transport for `[serverA, serverB, serverC]`: A runs the command, B
refuses the connection, C rejects the password. -/
def threeTransport : Nat → Response
  | 0 => { dial := .ok 1, newSession := .ok 2, output := "web01\n", runErr := none }
  | 1 => { dial := .error "dial tcp 10.0.0.2:2222: connect: connection refused",
           newSession := .error "", output := "", runErr := none }
  | _ => { dial := .error "ssh: handshake failed: ssh: unable to authenticate",
           newSession := .error "", output := "", runErr := none }

/-- A transport on which every connection attempt fails. -/
def deadTransport : Nat → Response :=
  fun _ => { dial := .error "dial tcp: i/o timeout", newSession := .error "", output := "",
             runErr := none }

/-- A transport like `threeTransport`, on which B answers too. -/
def threeTransportB : Nat → Response
  | 1 => { dial := .ok 3, newSession := .ok 4, output := "web02\n", runErr := none }
  | i => threeTransport i

/-- The run `run-command hostname` on `[serverA, serverB, serverC]`. -/
def threeWorld : World :=
  { Args := ["run-command", "hostname"]
    readFile := fun _ => .ok "servers: [A, B, C]"
    unmarshal := fun _ => .ok { Servers := [serverA, serverB, serverC] }
    transport := threeTransport
    schedule := [2, 0, 1, 0, 0, 2, 1] }

/-- The same run on a transport where B answers, under another scheduling. -/
def threeWorldB : World :=
  { threeWorld with transport := threeTransportB, schedule := [1, 1, 0, 2, 1, 1] }

/-- The same run when no server can be reached. -/
def deadWorld : World :=
  { threeWorld with transport := deadTransport, schedule := [] }

/-- A run without a command argument. -/
def bareWorld : World :=
  { threeWorld with Args := ["run-command"] }

/-- A run whose configuration lists no server. -/
def emptyWorld : World :=
  { threeWorld with unmarshal := fun _ => .ok { Servers := [] } }

/-! ## The scheduler keeps every goroutine whole -/

theorem project_nil (g : Nat) : project g [] = [] := rfl

theorem project_cons (g h : Nat) (e : Event) (t : List (Nat × Event)) :
    project g ((h, e) :: t) = if h = g then e :: project g t else project g t := by
  unfold project
  by_cases hg : h = g
  · simp [List.filter_cons, hg]
  · simp [List.filter_cons, hg]

theorem project_append (g : Nat) (t u : List (Nat × Event)) :
    project g (t ++ u) = project g t ++ project g u := by
  simp [project, List.filter_append]

theorem project_tag (g h : Nat) (t : List Event) :
    project g (t.map (fun e => (h, e))) = if h = g then t else [] := by
  induction t with
  | nil => simp [project]
  | cons e t ih =>
    rw [List.map_cons, project_cons, ih]
    by_cases hg : h = g <;> simp [hg]

theorem project_sequential (j : Nat) (tasks : List (List Event)) :
    ∀ g, project j (sequential g tasks) = if g ≤ j then tasks.getD (j - g) [] else [] := by
  induction tasks with
  | nil => intro g; simp [sequential, project]
  | cons t ts ih =>
    intro g
    rw [sequential, project_append, project_tag, ih (g + 1)]
    by_cases h1 : g = j
    · subst h1; simp
    · by_cases h2 : g ≤ j
      · have h3 : g + 1 ≤ j := by omega
        obtain ⟨d, hd⟩ : ∃ d, j - g = d + 1 := ⟨j - g - 1, by omega⟩
        have h4 : j - (g + 1) = d := by omega
        simp [h1, h2, h3, hd, h4]
      · have h3 : ¬ g + 1 ≤ j := by omega
        simp [h1, h2, h3]

theorem getD_cons_ne_nil {tasks : List (List Event)} {i : Nat} {e : Event} {rest : List Event}
    (h : tasks.getD i [] = e :: rest) : i < tasks.length := by
  by_contra hlt
  have : tasks.getD i [] = [] := by
    simp [List.getD_eq_getElem?_getD, List.getElem?_eq_none (Nat.le_of_not_lt hlt)]
  rw [this] at h
  cases h

theorem getD_set (tasks : List (List Event)) (i j : Nat) (rest : List Event)
    (hi : i < tasks.length) :
    (tasks.set i rest).getD j [] = if i = j then rest else tasks.getD j [] := by
  simp only [List.getD_eq_getElem?_getD, List.getElem?_set]
  by_cases h : i = j
  · subst h; simp [hi]
  · simp [h]

theorem project_interleave (sched : List Nat) :
    ∀ (tasks : List (List Event)) (j : Nat),
      project (j + 1) (interleave sched tasks) = tasks.getD j [] := by
  induction sched with
  | nil =>
    intro tasks j
    simp [interleave, project_sequential]
  | cons k ks ih =>
    intro tasks j
    rw [interleave]
    split
    · rename_i e rest heq
      have hlt := getD_cons_ne_nil heq
      rw [project_cons, ih, getD_set _ _ _ _ hlt]
      by_cases h : k % tasks.length = j
      · subst h; rw [if_pos rfl, if_pos rfl, heq]
      · have h2 : ¬ (k % tasks.length + 1 = j + 1) := by omega
        simp [h, h2]
    · exact ih tasks j

theorem project_zero_sequential (tasks : List (List Event)) :
    ∀ g, 0 < g → project 0 (sequential g tasks) = [] := by
  intro g hg
  rw [project_sequential]
  simp; omega

theorem project_zero_interleave (sched : List Nat) :
    ∀ (tasks : List (List Event)), project 0 (interleave sched tasks) = [] := by
  induction sched with
  | nil =>
    intro tasks
    exact project_zero_sequential tasks 1 (by decide)
  | cons k ks ih =>
    intro tasks
    rw [interleave]
    split
    · rw [project_cons, ih]; simp
    · exact ih tasks

theorem sequential_perm_step (tasks : List (List Event)) :
    ∀ (g i : Nat) (e : Event) (rest : List Event), tasks.getD i [] = e :: rest →
      (sequential g tasks).Perm ((g + i, e) :: sequential g (tasks.set i rest)) := by
  induction tasks with
  | nil => intro g i e rest h; simp at h
  | cons t ts ih =>
    intro g i e rest h
    cases i with
    | zero =>
      rw [List.getD_cons_zero] at h
      subst h
      simp [sequential]
    | succ i =>
      rw [List.getD_cons_succ] at h
      have := ih (g + 1) i e rest h
      simp only [sequential, List.set_cons_succ]
      have h2 : g + (i + 1) = g + 1 + i := by omega
      rw [h2]
      exact (List.Perm.append_left _ this).trans List.perm_middle

theorem interleave_perm (sched : List Nat) :
    ∀ tasks : List (List Event), (interleave sched tasks).Perm (sequential 1 tasks) := by
  induction sched with
  | nil => intro tasks; simp [interleave]
  | cons k ks ih =>
    intro tasks
    rw [interleave]
    split
    · rename_i e rest heq
      have h := sequential_perm_step tasks 1 (k % tasks.length) e rest heq
      rw [Nat.add_comm 1] at h
      exact ((ih _).cons _).trans h.symm
    · exact ih tasks

theorem untag_sequential (tasks : List (List Event)) :
    ∀ g, untag (sequential g tasks) = tasks.flatten := by
  induction tasks with
  | nil => intro g; rfl
  | cons t ts ih =>
    intro g
    simp [sequential, untag, List.map_append, Function.comp_def]
    simpa [untag] using ih (g + 1)

theorem untag_interleave_perm (sched : List Nat) (tasks : List (List Event)) :
    (untag (interleave sched tasks)).Perm tasks.flatten := by
  rw [← untag_sequential tasks 1]
  exact (interleave_perm sched tasks).map _

theorem sequential_of_all_nil (tasks : List (List Event)) :
    ∀ g, (∀ t ∈ tasks, t = []) → sequential g tasks = [] := by
  induction tasks with
  | nil => intro g _; rfl
  | cons t ts ih =>
    intro g h
    have ht : t = [] := h t (List.mem_cons_self _ _)
    subst ht
    simp [sequential, ih (g + 1) (fun x hx => h x (List.mem_cons_of_mem _ hx))]

/-- Every interleaving of the goroutines is the one some scheduler makes. -/
theorem interleave_complete (tasks : List (List Event)) (t : List (Nat × Event))
    (h : Merge tasks t) : ∃ sched, interleave sched tasks = t := by
  induction h with
  | done tasks h => exact ⟨[], by simp [interleave, sequential_of_all_nil tasks 1 h]⟩
  | step tasks i e rest t h _ ih =>
    obtain ⟨sched, hs⟩ := ih
    have hlt := getD_cons_ne_nil h
    refine ⟨i :: sched, ?_⟩
    rw [interleave, Nat.mod_eq_of_lt hlt, h]
    simp only []
    rw [hs]

/-! ## Lemmas on `TrimSpace` and on `%d` -/

theorem trimSpace_split (s : String) :
    ∃ pre suf : List Char,
      s.data = pre ++ (TrimSpace s).data ++ suf ∧
      (∀ c ∈ pre, isSpace c = true) ∧ (∀ c ∈ suf, isSpace c = true) := by
  refine ⟨s.data.takeWhile isSpace,
    (((s.data.dropWhile isSpace).reverse).takeWhile isSpace).reverse, ?_, ?_, ?_⟩
  · have h1 := List.takeWhile_append_dropWhile isSpace s.data
    have h2 := List.takeWhile_append_dropWhile isSpace (s.data.dropWhile isSpace).reverse
    have h3 := congrArg List.reverse h2
    rw [List.reverse_append, List.reverse_reverse] at h3
    simp only [TrimSpace, List.append_assoc]
    rw [h3, h1]
  · intro c hc
    exact List.mem_takeWhile_imp hc
  · intro c hc
    exact List.mem_takeWhile_imp (List.mem_reverse.mp hc)

theorem trimSpace_getLast (s : String) (c : Char)
    (h : (TrimSpace s).data.getLast? = some c) : isSpace c = false := by
  simp only [TrimSpace, List.getLast?_reverse] at h
  have := List.head?_dropWhile_not isSpace (s.data.dropWhile isSpace).reverse
  rw [h] at this
  simpa using this

theorem head?_of_append {α : Type} (a b : List α) (c : α) (h : a.head? = some c) :
    (a ++ b).head? = some c := by
  cases a with
  | nil => simp at h
  | cons x xs => simpa using h

theorem trimSpace_head (s : String) (c : Char)
    (h : (TrimSpace s).data.head? = some c) : isSpace c = false := by
  have h2 := List.takeWhile_append_dropWhile isSpace (s.data.dropWhile isSpace).reverse
  have h3 := congrArg List.reverse h2
  rw [List.reverse_append, List.reverse_reverse] at h3
  have h4 : (s.data.dropWhile isSpace).head? = some c := by
    rw [← h3]
    exact head?_of_append _ _ c h
  have := List.head?_dropWhile_not isSpace s.data
  rw [h4] at this
  simpa using this

theorem digitValue_digitChar (k : Nat) (h : k < 10) : digitValue (Nat.digitChar k) = k := by
  interval_cases k <;> rfl

theorem readNat_toDigitsCore (fuel : Nat) :
    ∀ (n : Nat) (ds : List Char), n < fuel →
      (Nat.toDigitsCore 10 fuel n ds).foldl (fun acc c => acc * 10 + digitValue c) 0
        = ds.foldl (fun acc c => acc * 10 + digitValue c) n := by
  induction fuel with
  | zero => intro n ds h; omega
  | succ fuel ih =>
    intro n ds h
    rw [Nat.toDigitsCore]
    by_cases h0 : n / 10 = 0
    · simp only [h0, if_true, List.foldl_cons, Nat.zero_mul, Nat.zero_add]
      rw [digitValue_digitChar _ (Nat.mod_lt _ (by decide))]
      have : n % 10 = n := by omega
      rw [this]
    · simp only [h0, if_false]
      rw [ih (n / 10) _ (by omega), List.foldl_cons,
        digitValue_digitChar _ (Nat.mod_lt _ (by decide))]
      have : n / 10 * 10 + n % 10 = n := by omega
      rw [this]

theorem readNat_repr (n : Nat) : readNat (Nat.repr n).data = n := by
  simp only [readNat, Nat.repr, Nat.toDigits, List.asString]
  rw [readNat_toDigitsCore (n + 1) n [] (by omega)]
  rfl

theorem head_toDigitsCore_ne (fuel : Nat) :
    ∀ (n : Nat) (ds : List Char), n < fuel →
      (Nat.toDigitsCore 10 fuel n ds).head? ≠ some '-' := by
  induction fuel with
  | zero => intro n ds h; omega
  | succ fuel ih =>
    intro n ds h
    rw [Nat.toDigitsCore]
    by_cases h0 : n / 10 = 0
    · simp only [h0, if_true, List.head?_cons]
      have hk : n % 10 < 10 := Nat.mod_lt _ (by decide)
      generalize n % 10 = k at hk
      interval_cases k <;> decide
    · simp only [h0, if_false]
      exact ih _ _ (by omega)

theorem readInt_fmtInt (p : Int) : readInt (fmtInt p).data = p := by
  cases p with
  | ofNat n =>
    have hne := head_toDigitsCore_ne (n + 1) n [] (by omega)
    have hr := readNat_repr n
    simp only [fmtInt]
    generalize hds : (Nat.repr n).data = ds at hr
    have hne2 : ds.head? ≠ some '-' := by
      rw [← hds]; simpa [Nat.repr, Nat.toDigits, List.asString] using hne
    unfold readInt
    split
    · simp at hne2
    · simp [hr]
  | negSucc n =>
    have hr := readNat_repr (n + 1)
    have : (fmtInt (Int.negSucc n)).data = '-' :: (Nat.repr (n + 1)).data := by
      simp [fmtInt, String.data_append]
    rw [this]
    simp only [readInt, hr]
    rfl

/-! ## The three ways through `executeCommand` -/

theorem executeCommand_dial_error (r : Response) (server : Server) (command err : String)
    (h : r.dial = .error err) :
    executeCommand r server command =
      [ Event.dial "tcp" (server.Host ++ ":" ++ fmtInt server.Port) (clientConfigOf server)
          (.error err),
        Event.log ("--- [" ++ server.Host ++ "] 接続失敗 ---\nError: " ++ err ++ "\n") ] := by
  simp [executeCommand, returnWith, clientConfigOf, h]

theorem executeCommand_session_error (r : Response) (server : Server) (command err : String)
    (client : Nat) (h : r.dial = .ok client) (h2 : r.newSession = .error err) :
    executeCommand r server command =
      [ Event.dial "tcp" (server.Host ++ ":" ++ fmtInt server.Port) (clientConfigOf server)
          (.ok client),
        Event.newSession client (.error err),
        Event.log ("--- [" ++ server.Host ++ "] セッション作成失敗 ---\nError: " ++ err ++ "\n"),
        Event.closeClient client ] := by
  simp [executeCommand, returnWith, clientConfigOf, h, h2]

theorem executeCommand_connected (r : Response) (server : Server) (command : String)
    (client session : Nat) (h : r.dial = .ok client) (h2 : r.newSession = .ok session) :
    executeCommand r server command =
      [ Event.dial "tcp" (server.Host ++ ":" ++ fmtInt server.Port) (clientConfigOf server)
          (.ok client),
        Event.newSession client (.ok session),
        Event.combinedOutput session command r.output r.runErr ] ++
      (resultBlock server.Host r).map Event.stdout ++
      [ Event.closeSession session, Event.closeClient client ] := by
  cases he : r.runErr <;>
    simp [executeCommand, returnWith, clientConfigOf, resultBlock, h, h2, he]

theorem stdoutOf_executeCommand (r : Response) (server : Server) (command : String) :
    stdoutOf (executeCommand r server command) =
      if r.connects then resultBlock server.Host r else [] := by
  cases hd : r.dial with
  | error err =>
    rw [executeCommand_dial_error r server command err hd]
    simp [stdoutOf, Event.stdoutText, Response.connects, hd]
  | ok client =>
    cases hs : r.newSession with
    | error err =>
      rw [executeCommand_session_error r server command err client hd hs]
      simp [stdoutOf, Event.stdoutText, Response.connects, hd, hs]
    | ok session =>
      rw [executeCommand_connected r server command client session hd hs]
      simp [stdoutOf, Event.stdoutText, Response.connects, hd, hs, List.filterMap_append,
        List.filterMap_map, Function.comp_def]

theorem logOf_executeCommand (r : Response) (server : Server) (command : String) :
    logOf (executeCommand r server command) = failureLog server.Host r := by
  cases hd : r.dial with
  | error err =>
    rw [executeCommand_dial_error r server command err hd]
    simp [logOf, Event.logText, failureLog, hd]
  | ok client =>
    cases hs : r.newSession with
    | error err =>
      rw [executeCommand_session_error r server command err client hd hs]
      simp [logOf, Event.logText, failureLog, hd, hs]
    | ok session =>
      rw [executeCommand_connected r server command client session hd hs]
      simp [logOf, Event.logText, failureLog, hd, hs, List.filterMap_append,
        List.filterMap_map, Function.comp_def]

theorem callArgs_executeCommand (r : Response) (server : Server) (command : String) :
    (executeCommand r server command).filterMap Event.callArgs = [] := by
  cases hd : r.dial with
  | error err =>
    rw [executeCommand_dial_error r server command err hd]
    simp [Event.callArgs]
  | ok client =>
    cases hs : r.newSession with
    | error err =>
      rw [executeCommand_session_error r server command err client hd hs]
      simp [Event.callArgs]
    | ok session =>
      rw [executeCommand_connected r server command client session hd hs]
      simp [Event.callArgs, List.filterMap_append, List.filterMap_map, Function.comp_def]

/-! ## The dispatcher -/

theorem length_spawn (transport : Nat → Response) (cmd : String) (servers : List Server) :
    ∀ b, (spawn transport cmd b servers).length = servers.length := by
  induction servers with
  | nil => intro b; rfl
  | cons s rest ih => intro b; simp [spawn, ih (b + 1)]

theorem getD_spawn (transport : Nat → Response) (cmd : String) (servers : List Server) :
    ∀ (b j : Nat) (h : j < servers.length),
      (spawn transport cmd b servers).getD j [] =
        goroutine (transport (b + j)) (servers.get ⟨j, h⟩) cmd := by
  induction servers with
  | nil => intro b j h; simp at h
  | cons s rest ih =>
    intro b j h
    cases j with
    | zero => simp [spawn]
    | succ j =>
      have hj : j < rest.length := by simpa using h
      rw [spawn, List.getD_cons_succ, ih (b + 1) j hj]
      have : b + 1 + j = b + (j + 1) := by omega
      rw [this]
      rfl

theorem getD_spawn_out (transport : Nat → Response) (cmd : String) (servers : List Server)
    (b j : Nat) (h : servers.length ≤ j) :
    (spawn transport cmd b servers).getD j [] = [] := by
  have : (spawn transport cmd b servers).length ≤ j := by rw [length_spawn]; exact h
  simp [List.getD_eq_getElem?_getD, List.getElem?_eq_none this]

theorem spawn_congr (t1 t2 : Nat → Response) (cmd : String) (servers : List Server)
    (j : Nat) (h : t1 j = t2 j) :
    (spawn t1 cmd 0 servers).getD j [] = (spawn t2 cmd 0 servers).getD j [] := by
  by_cases hj : j < servers.length
  · rw [getD_spawn t1 cmd servers 0 j hj, getD_spawn t2 cmd servers 0 j hj]
    simp [h]
  · rw [getD_spawn_out t1 cmd servers 0 j (by omega), getD_spawn_out t2 cmd servers 0 j (by omega)]

theorem callArgs_spawn (transport : Nat → Response) (cmd : String) (servers : List Server) :
    ∀ b, (spawn transport cmd b servers).flatten.filterMap Event.callArgs =
      servers.map (fun s => (s, cmd)) := by
  induction servers with
  | nil => intro b; rfl
  | cons s rest ih =>
    intro b
    simp [spawn, goroutine, List.filterMap_append, List.filterMap_cons, Event.callArgs,
      callArgs_executeCommand, ih (b + 1)]

/-- The events of the goroutines of a run whose configuration has loaded. -/
theorem main_loaded (w : World) (yamlFile : String) (config : Config)
    (hargs : 2 ≤ w.Args.length) (hread : w.readFile "servers.yaml" = .ok yamlFile)
    (hparse : w.unmarshal yamlFile = .ok config) :
    main w =
      { trace := (0, Event.readFile "servers.yaml") ::
          interleave w.schedule (spawn w.transport (w.Args.getD 1 "") 0 config.Servers)
        exitCode := 0 } := by
  have : ¬ w.Args.length < 2 := by omega
  simp [main, this, hread, hparse]

/-! ## What an invocation of `executeCommand` shows of its arguments -/

theorem dialRequest_executeCommand (r : Response) (server : Server) (command : String) :
    (executeCommand r server command).filterMap Event.dialRequest =
      [("tcp", server.Host ++ ":" ++ fmtInt server.Port, clientConfigOf server)] := by
  cases hd : r.dial with
  | error err =>
    rw [executeCommand_dial_error r server command err hd]
    simp [Event.dialRequest]
  | ok client =>
    cases hs : r.newSession with
    | error err =>
      rw [executeCommand_session_error r server command err client hd hs]
      simp [Event.dialRequest]
    | ok session =>
      rw [executeCommand_connected r server command client session hd hs]
      simp [Event.dialRequest, List.filterMap_append, List.filterMap_map, Function.comp_def]

theorem ranCommand_executeCommand (r : Response) (server : Server) (command : String) :
    (executeCommand r server command).filterMap Event.ranCommand =
      if r.connects then [command] else [] := by
  cases hd : r.dial with
  | error err =>
    rw [executeCommand_dial_error r server command err hd]
    simp [Event.ranCommand, Response.connects, hd]
  | ok client =>
    cases hs : r.newSession with
    | error err =>
      rw [executeCommand_session_error r server command err client hd hs]
      simp [Event.ranCommand, Response.connects, hd, hs]
    | ok session =>
      rw [executeCommand_connected r server command client session hd hs]
      simp [Event.ranCommand, Response.connects, hd, hs, List.filterMap_append,
        List.filterMap_map, Function.comp_def]

theorem dialRequest_spawn (transport : Nat → Response) (cmd : String) (servers : List Server) :
    ∀ b, (spawn transport cmd b servers).flatten.filterMap Event.dialRequest =
      servers.map (fun s => ("tcp", s.Host ++ ":" ++ fmtInt s.Port, clientConfigOf s)) := by
  induction servers with
  | nil => intro b; rfl
  | cons s rest ih =>
    intro b
    simp [spawn, goroutine, List.filterMap_append, List.filterMap_cons, Event.dialRequest,
      dialRequest_executeCommand, ih (b + 1)]

theorem ranCommand_spawn (transport : Nat → Response) (cmd : String) (servers : List Server) :
    ∀ b, (spawn transport cmd b servers).flatten.filterMap Event.ranCommand =
      List.replicate
        ((List.range servers.length).countP (fun i => (transport (b + i)).connects)) cmd := by
  induction servers with
  | nil => intro b; rfl
  | cons s rest ih =>
    intro b
    have hshift : (fun i => (transport (b + 1 + i)).connects) =
        (fun i => (transport (b + i)).connects) ∘ Nat.succ := by
      funext i
      have : b + 1 + i = b + (i + 1) := by omega
      simp [this]
    simp only [spawn, goroutine, List.flatten_cons, List.filterMap_append, List.filterMap_cons,
      Event.ranCommand, ranCommand_executeCommand, ih (b + 1), List.length_cons,
      List.range_succ_eq_map, List.countP_cons, List.countP_map, hshift, Nat.add_zero]
    by_cases hc : (transport b).connects = true
    · rw [if_pos hc, if_pos hc, List.replicate_succ]
      rfl
    · rw [if_neg hc, if_neg hc]
      rfl

/-! ## Writes to standard output touch no connection -/

theorem after_stdout (l : List String) :
    ∀ R : Resources, R.after (l.map Event.stdout) = R := by
  induction l with
  | nil => intro R; rfl
  | cons x xs ih =>
    intro R
    simp only [List.map_cons, Resources.after, List.foldl_cons, Resources.step]
    exact ih R

theorem after_append (R : Resources) (t u : List Event) :
    R.after (t ++ u) = (R.after t).after u := by
  simp [Resources.after, List.foldl_append]

theorem countP_stdout (p : Event → Bool) (hp : ∀ text, p (Event.stdout text) = false)
    (l : List String) : (l.map Event.stdout).countP p = 0 := by
  induction l with
  | nil => rfl
  | cons x xs ih => simp [List.countP_cons, hp, ih]

/-! ## The claims -/

/-- C1 (as written, refuted): on `serverA`, the command `false` runs with no
transport problem and exits with status 1; the block written is not a
`Status: OK` block but `Status: Command Failed` with an `Error:` line. -/
theorem C1_counterexample :
    stdoutOf (executeCommand (cleanRun 1 2 "" 1) serverA "false") =
      [ "--- [Result from 10.0.0.1] ---\n", "Status: Command Failed\n",
        "Error: Process exited with status 1\n", "\n", "---\n" ] ∧
    "Status: OK\n" ∉ stdoutOf (executeCommand (cleanRun 1 2 "" 1) serverA "false") := by
  decide

/-- C1 (amended): when the command runs with no transport problem and exits
with status `status`, the block is the header, then `Status: OK` exactly when
the status is zero and otherwise `Status: Command Failed` with the line
`Error: Process exited with status N`, then the trimmed output, then the
separator. -/
theorem C1_status_follows_exit_status (server : Server) (command : String)
    (client session : Nat) (output : String) (status : Nat) :
    stdoutOf (executeCommand (cleanRun client session output status) server command) =
      ["--- [Result from " ++ server.Host ++ "] ---\n"] ++
      (if status = 0 then ["Status: OK\n"]
       else ["Status: Command Failed\n",
             "Error: Process exited with status " ++ Nat.repr status ++ "\n"]) ++
      [TrimSpace output ++ "\n", "---\n"] := by
  rw [stdoutOf_executeCommand]
  have hlit : "Error: " ++ "Process exited with status " = "Error: Process exited with status " := by
    decide
  by_cases h : status = 0
  · simp [cleanRun, Response.connects, resultBlock, exitError, h]
  · simp [cleanRun, Response.connects, resultBlock, exitError, h]
    rw [← String.append_assoc, hlit]

/-- C4: once the command has been executed, the writes of `executeCommand`
to standard output are the header naming the host, `Status: OK` if there is no
error and otherwise `Status: Command Failed` and `Error: ` with the error
text, the output without its leading and trailing white space, and the
separator; the second write is `Status: OK` exactly when there is no error. -/
theorem C4_result_block (r : Response) (server : Server) (command : String)
    (client session : Nat) (hd : r.dial = .ok client) (hs : r.newSession = .ok session) :
    stdoutOf (executeCommand r server command) =
      ["--- [Result from " ++ server.Host ++ "] ---\n"] ++
      (match r.runErr with
       | none => ["Status: OK\n"]
       | some err => ["Status: Command Failed\n", "Error: " ++ err ++ "\n"]) ++
      [TrimSpace r.output ++ "\n", "---\n"] ∧
    ((stdoutOf (executeCommand r server command)).get? 1 = some "Status: OK\n" ↔
      r.runErr = none) ∧
    (∃ pre suf : List Char,
      r.output.data = pre ++ (TrimSpace r.output).data ++ suf ∧
      (∀ c ∈ pre, isSpace c = true) ∧ (∀ c ∈ suf, isSpace c = true)) ∧
    (∀ c, (TrimSpace r.output).data.head? = some c → isSpace c = false) ∧
    (∀ c, (TrimSpace r.output).data.getLast? = some c → isSpace c = false) := by
  have hc : r.connects = true := by simp [Response.connects, hd, hs]
  refine ⟨?_, ?_, trimSpace_split r.output, trimSpace_head r.output,
    trimSpace_getLast r.output⟩
  · rw [stdoutOf_executeCommand, hc]
    cases he : r.runErr <;> simp [resultBlock, he]
  · rw [stdoutOf_executeCommand, hc]
    cases he : r.runErr with
    | none => simp [resultBlock, he]
    | some err =>
      simp only [resultBlock, he]
      constructor
      · intro h
        simp at h
      · intro h; cases h

/-- C4 at a concrete input: a command on `serverA` whose execution fails
with `EOF` after some output. -/
theorem C4_result_block_witness :
    (({ dial := .ok 1, newSession := .ok 2, output := "  partial\n", runErr := some "EOF" } :
        Response).dial = .ok 1) ∧
    stdoutOf (executeCommand
        { dial := .ok 1, newSession := .ok 2, output := "  partial\n", runErr := some "EOF" }
        serverA "uptime") =
      ["--- [Result from " ++ serverA.Host ++ "] ---\n"] ++
      ["Status: Command Failed\n", "Error: " ++ "EOF" ++ "\n"] ++
      [TrimSpace "  partial\n" ++ "\n", "---\n"] :=
  ⟨rfl, (C4_result_block
    { dial := .ok 1, newSession := .ok 2, output := "  partial\n", runErr := some "EOF" }
    serverA "uptime" 1 2 rfl rfl).1⟩

/-- C2 (as written, refuted): with three targets, A answering, B refusing
the connection and C rejecting the password, standard output receives the
block of A and nothing else; the goroutines of B and C write nothing to
standard output, their failures go to the logger. -/
theorem C2_counterexample :
    stdoutOf (untag (main threeWorld).trace) =
      ["--- [Result from 10.0.0.1] ---\n", "Status: OK\n", "web01\n", "---\n"] ∧
    stdoutOf (project 2 (main threeWorld).trace) = [] ∧
    stdoutOf (project 3 (main threeWorld).trace) = [] ∧
    logOf (project 2 (main threeWorld).trace) =
      ["--- [10.0.0.2] 接続失敗 ---\nError: dial tcp 10.0.0.2:2222: connect: connection refused\n"] ∧
    logOf (project 3 (main threeWorld).trace) =
      ["--- [10.0.0.3] 接続失敗 ---\nError: ssh: handshake failed: ssh: unable to authenticate\n"] := by
  decide

/-- C2 (amended): when the batch runs, the goroutine of target `i` writes to
standard output the result block of that target if both its connection and
its session are set up, and nothing otherwise; a target whose connection or
session fails gets one log message instead, naming the host and carrying the
error text; the main goroutine and no other goroutine writes anything to
standard output; so the number of result blocks is the number of targets
whose connection and session are set up. -/
theorem C2_blocks_for_connected_targets (w : World) (yamlFile : String) (config : Config)
    (hargs : 2 ≤ w.Args.length) (hread : w.readFile "servers.yaml" = .ok yamlFile)
    (hparse : w.unmarshal yamlFile = .ok config) :
    (∀ (i : Nat) (h : i < config.Servers.length),
      stdoutOf (project (i + 1) (main w).trace) =
        (if (w.transport i).connects
         then resultBlock (config.Servers.get ⟨i, h⟩).Host (w.transport i) else []) ∧
      logOf (project (i + 1) (main w).trace) =
        failureLog (config.Servers.get ⟨i, h⟩).Host (w.transport i)) ∧
    stdoutOf (project 0 (main w).trace) = [] ∧
    (∀ i, config.Servers.length ≤ i → project (i + 1) (main w).trace = []) ∧
    (List.range config.Servers.length).countP
        (fun i => !(stdoutOf (project (i + 1) (main w).trace)).isEmpty) =
      (List.range config.Servers.length).countP (fun i => (w.transport i).connects) := by
  have hmain := main_loaded w yamlFile config hargs hread hparse
  have hproj : ∀ i, project (i + 1) (main w).trace =
      (spawn w.transport (w.Args.getD 1 "") 0 config.Servers).getD i [] := by
    intro i
    rw [hmain]
    simp only []
    rw [project_cons, if_neg (by omega), project_interleave]
  have hblock : ∀ (i : Nat) (h : i < config.Servers.length),
      stdoutOf (project (i + 1) (main w).trace) =
        (if (w.transport i).connects
         then resultBlock (config.Servers.get ⟨i, h⟩).Host (w.transport i) else []) := by
    intro i h
    rw [hproj, getD_spawn _ _ _ 0 i h, Nat.zero_add]
    simp only [goroutine, stdoutOf, List.filterMap_cons, Event.stdoutText]
    exact stdoutOf_executeCommand _ _ _
  refine ⟨?_, ?_, ?_, ?_⟩
  · intro i h
    refine ⟨hblock i h, ?_⟩
    rw [hproj, getD_spawn _ _ _ 0 i h, Nat.zero_add]
    simp only [goroutine, logOf, List.filterMap_cons, Event.logText]
    exact logOf_executeCommand _ _ _
  · rw [hmain]
    simp only []
    rw [project_cons, if_pos rfl, project_zero_interleave]
    rfl
  · intro i hi
    rw [hproj, getD_spawn_out _ _ _ 0 i hi]
  · apply List.countP_congr
    intro i hi
    have h : i < config.Servers.length := List.mem_range.mp hi
    rw [hblock i h]
    cases hc : (w.transport i).connects <;> simp [resultBlock]

/-- C2 (amended) at the three-target run: one result block, for A. -/
theorem C2_blocks_for_connected_targets_witness :
    2 ≤ threeWorld.Args.length ∧
    (List.range 3).countP
        (fun i => !(stdoutOf (project (i + 1) (main threeWorld).trace)).isEmpty) =
      (List.range 3).countP (fun i => (threeWorld.transport i).connects) ∧
    (List.range 3).countP (fun i => (threeWorld.transport i).connects) = 1 :=
  ⟨by decide,
   (C2_blocks_for_connected_targets threeWorld "servers: [A, B, C]"
      { Servers := [serverA, serverB, serverC] } (by decide) rfl rfl).2.2.2,
   by decide⟩

/-- C3: when the configuration has loaded, the goroutine of element `i` of
the server list is one invocation of `executeCommand` on that element, the
command of the command line and the answers of the transport for that
element, and there is no other goroutine; over the whole run, for every
scheduling, the invocations are, as a multiset, the servers of the list each
with that command, the connection requests made are, as a multiset, those of
the servers of the list, one each, and every command handed to a session is
the command of the command line, once per target that connects. -/
theorem C3_one_invocation_per_target (w : World) (yamlFile commandToRun : String)
    (config : Config)
    (hcmd : w.Args.get? 1 = some commandToRun)
    (hread : w.readFile "servers.yaml" = .ok yamlFile)
    (hparse : w.unmarshal yamlFile = .ok config) :
    (∀ (i : Nat) (h : i < config.Servers.length),
      project (i + 1) (main w).trace =
        Event.call (config.Servers.get ⟨i, h⟩) commandToRun ::
          executeCommand (w.transport i) (config.Servers.get ⟨i, h⟩) commandToRun) ∧
    (∀ i, config.Servers.length ≤ i → project (i + 1) (main w).trace = []) ∧
    project 0 (main w).trace = [Event.readFile "servers.yaml"] ∧
    (((untag (main w).trace).filterMap Event.callArgs : List (Server × String)) :
        Multiset (Server × String)) =
      ((config.Servers.map (fun s => (s, commandToRun)) : List (Server × String)) :
        Multiset (Server × String)) ∧
    (((untag (main w).trace).filterMap Event.dialRequest :
        List (String × String × ClientConfig)) : Multiset (String × String × ClientConfig)) =
      ((config.Servers.map (fun s =>
          ("tcp", s.Host ++ ":" ++ fmtInt s.Port,
            ({ User := s.User, Auth := [AuthMethod.Password s.Password],
               HostKeyCallback := HostKeyCallback.InsecureIgnoreHostKey,
               Timeout := 10 * Second } : ClientConfig))) :
        List (String × String × ClientConfig)) : Multiset (String × String × ClientConfig)) ∧
    (untag (main w).trace).filterMap Event.ranCommand =
      List.replicate
        ((List.range config.Servers.length).countP (fun i => (w.transport i).connects))
        commandToRun := by
  have hargs : 2 ≤ w.Args.length := by
    have := List.get?_eq_some.mp hcmd
    obtain ⟨h, _⟩ := this
    omega
  have hget : w.Args.getD 1 "" = commandToRun := by
    simp only [List.get?_eq_getElem?] at hcmd
    simp [List.getD_eq_getElem?_getD, hcmd]
  have hmain := main_loaded w yamlFile config hargs hread hparse
  rw [hget] at hmain
  have hperm := untag_interleave_perm w.schedule (spawn w.transport commandToRun 0 config.Servers)
  refine ⟨?_, ?_, ?_, ?_, ?_, ?_⟩
  · intro i h
    rw [hmain]
    simp only []
    rw [project_cons, if_neg (by omega), project_interleave, getD_spawn _ _ _ 0 i h,
      Nat.zero_add]
    rfl
  · intro i hi
    rw [hmain]
    simp only []
    rw [project_cons, if_neg (by omega), project_interleave, getD_spawn_out _ _ _ 0 i hi]
  · rw [hmain]
    simp only []
    rw [project_cons, if_pos rfl, project_zero_interleave]
  · rw [Multiset.coe_eq_coe, hmain]
    simp only [untag, List.map_cons, List.filterMap_cons, Event.callArgs]
    have h2 := hperm.filterMap Event.callArgs
    rw [callArgs_spawn] at h2
    exact h2
  · rw [Multiset.coe_eq_coe, hmain]
    simp only [untag, List.map_cons, List.filterMap_cons, Event.dialRequest]
    have h2 := hperm.filterMap Event.dialRequest
    rw [dialRequest_spawn] at h2
    exact h2
  · rw [hmain]
    simp only [untag, List.map_cons, List.filterMap_cons, Event.ranCommand]
    have h2 := hperm.filterMap Event.ranCommand
    rw [ranCommand_spawn] at h2
    simp only [Nat.zero_add] at h2
    exact List.perm_replicate.mp h2

/-- C3 at the three-target run: the goroutine of B is the invocation of
`executeCommand` on B with `hostname`, and the run hands `hostname` to the one
session that is set up. -/
theorem C3_one_invocation_per_target_witness :
    threeWorld.Args.get? 1 = some "hostname" ∧
    project 2 (main threeWorld).trace =
      Event.call serverB "hostname" ::
        executeCommand (threeWorld.transport 1) serverB "hostname" ∧
    (untag (main threeWorld).trace).filterMap Event.ranCommand =
      List.replicate
        ((List.range 3).countP (fun i => (threeWorld.transport i).connects)) "hostname" :=
  have h := C3_one_invocation_per_target threeWorld "servers: [A, B, C]" "hostname"
    { Servers := [serverA, serverB, serverC] } rfl rfl rfl
  ⟨rfl, h.1 1 (by decide), h.2.2.2.2.2⟩

/-- C5: two runs on the same arguments, file and configuration whose
transports agree on every target other than `i` produce, whatever the two
schedulings, the same events for every target `j` other than `i`; and in a
run whose configuration has loaded, the events of target `j` are those of
`executeCommand` on that target, the command, and the answers of the
transport for that target. -/
theorem C5_failure_isolation (w1 w2 : World) (i : Nat)
    (hargs : w1.Args = w2.Args) (hread : w1.readFile = w2.readFile)
    (hparse : w1.unmarshal = w2.unmarshal)
    (hagree : ∀ j, j ≠ i → w1.transport j = w2.transport j) :
    (∀ j, j ≠ i → project (j + 1) (main w1).trace = project (j + 1) (main w2).trace) ∧
    (∀ (yamlFile : String) (config : Config), 2 ≤ w1.Args.length →
      w1.readFile "servers.yaml" = .ok yamlFile → w1.unmarshal yamlFile = .ok config →
      ∀ (j : Nat) (h : j < config.Servers.length),
        project (j + 1) (main w1).trace =
          Event.call (config.Servers.get ⟨j, h⟩) (w1.Args.getD 1 "") ::
            executeCommand (w1.transport j) (config.Servers.get ⟨j, h⟩) (w1.Args.getD 1 "")) := by
  constructor
  · intro j hj
    unfold main
    rw [← hargs, ← hread, ← hparse]
    split
    · rfl
    · split
      · rfl
      · split
        · rfl
        · simp only [List.singleton_append]
          rw [project_cons, if_neg (by omega), project_cons, if_neg (by omega),
            project_interleave, project_interleave]
          exact spawn_congr _ _ _ _ j (hagree j hj)
  · intro yamlFile config h2 hr hp j h
    rw [main_loaded w1 yamlFile config h2 hr hp]
    simp only []
    rw [project_cons, if_neg (by omega), project_interleave, getD_spawn _ _ _ 0 j h,
      Nat.zero_add]
    rfl

/-- C5 at the three-target run: whether B refuses the connection or answers,
A and C are reported the same. -/
theorem C5_failure_isolation_witness :
    (∀ j, j ≠ 1 → threeWorld.transport j = threeWorldB.transport j) ∧
    (∀ j, j ≠ 1 →
      project (j + 1) (main threeWorld).trace = project (j + 1) (main threeWorldB).trace) :=
  have hagree : ∀ j, j ≠ 1 → threeWorld.transport j = threeWorldB.transport j := by
    intro j hj
    match j, hj with
    | 0, _ => rfl
    | 1, h => exact absurd rfl h
    | _ + 2, _ => rfl
  ⟨hagree, (C5_failure_isolation threeWorld threeWorldB 1 rfl rfl rfl hagree).1⟩

/-- C6: when a command argument is given and the configuration is read and
parsed, the process exits with status 0, whatever the servers, the answers of
the transport and the scheduling. -/
theorem C6_exit_zero (w : World) (yamlFile : String) (config : Config)
    (hargs : 2 ≤ w.Args.length) (hread : w.readFile "servers.yaml" = .ok yamlFile)
    (hparse : w.unmarshal yamlFile = .ok config) :
    (main w).exitCode = 0 := by
  rw [main_loaded w yamlFile config hargs hread hparse]

/-- C6 at a run in which every target fails to connect. -/
theorem C6_exit_zero_witness :
    2 ≤ deadWorld.Args.length ∧ (main deadWorld).exitCode = 0 :=
  ⟨by decide, C6_exit_zero deadWorld "servers: [A, B, C]"
    { Servers := [serverA, serverB, serverC] } (by decide) rfl rfl⟩

/-- C7 (as written, refuted): started without a command argument, the
program hands nothing to the logger, so nothing reaches standard error; the
three usage lines are written to standard output. -/
theorem C7_counterexample :
    logOf (untag (main bareWorld).trace) = [] ∧
    stdoutOf (untag (main bareWorld).trace) =
      [ "使用法: go run run-command.go \"<実行したいコマンド>\"\n",
        "例: go run run-command.go \"hostname\"\n",
        "例: go run run-command.go \"ls -l /tmp\"\n" ] := by
  decide

/-- C7 (amended): started with fewer than two arguments, the program writes
the three usage lines to standard output and exits with status 1; the run
consists of these three writes, so the configuration is not read, nothing is
logged, `executeCommand` is not invoked and no connection is attempted. -/
theorem C7_usage_on_stdout (w : World) (hargs : w.Args.length < 2) :
    (main w).trace =
      [ (0, Event.stdout "使用法: go run run-command.go \"<実行したいコマンド>\"\n"),
        (0, Event.stdout "例: go run run-command.go \"hostname\"\n"),
        (0, Event.stdout "例: go run run-command.go \"ls -l /tmp\"\n") ] ∧
    (main w).exitCode = 1 ∧
    (∀ name, (0, Event.readFile name) ∉ (main w).trace) ∧
    (untag (main w).trace).filterMap Event.callArgs = [] ∧
    (untag (main w).trace).filter Event.isDial = [] ∧
    logOf (untag (main w).trace) = [] := by
  have hm : main w =
      { trace :=
          [ (0, Event.stdout "使用法: go run run-command.go \"<実行したいコマンド>\"\n"),
            (0, Event.stdout "例: go run run-command.go \"hostname\"\n"),
            (0, Event.stdout "例: go run run-command.go \"ls -l /tmp\"\n") ]
        exitCode := 1 } := by
    unfold main
    rw [if_pos hargs]
    rfl
  rw [hm]
  refine ⟨rfl, rfl, ?_, rfl, rfl, rfl⟩
  intro name h
  simp at h

/-- C7 (amended) at a run with the program name only. -/
theorem C7_usage_on_stdout_witness :
    bareWorld.Args.length < 2 ∧ (main bareWorld).exitCode = 1 :=
  ⟨by decide, (C7_usage_on_stdout bareWorld (by decide)).2.1⟩

/-- C8: when the configuration parses to an empty server list, the run
consists of the reading of the file alone: no invocation of `executeCommand`,
no connection attempt, nothing on standard output, and exit status 0. -/
theorem C8_empty_list (w : World) (yamlFile : String) (config : Config)
    (hargs : 2 ≤ w.Args.length) (hread : w.readFile "servers.yaml" = .ok yamlFile)
    (hparse : w.unmarshal yamlFile = .ok config) (hempty : config.Servers = []) :
    (main w).trace = [(0, Event.readFile "servers.yaml")] ∧
    (untag (main w).trace).filterMap Event.callArgs = [] ∧
    (untag (main w).trace).filter Event.isDial = [] ∧
    stdoutOf (untag (main w).trace) = [] ∧
    (main w).exitCode = 0 := by
  have hi : ∀ sched : List Nat, interleave sched ([] : List (List Event)) = [] := by
    intro sched
    induction sched with
    | nil => rfl
    | cons k ks ih => simpa [interleave] using ih
  have hm := main_loaded w yamlFile config hargs hread hparse
  rw [hempty] at hm
  simp only [spawn, hi] at hm
  rw [hm]
  exact ⟨rfl, rfl, rfl, rfl, rfl⟩

/-- C8 at a run whose configuration lists no server. -/
theorem C8_empty_list_witness :
    2 ≤ emptyWorld.Args.length ∧
    (main emptyWorld).trace = [(0, Event.readFile "servers.yaml")] ∧
    (main emptyWorld).exitCode = 0 :=
  have h := C8_empty_list emptyWorld "servers: [A, B, C]" { Servers := [] }
    (by decide) rfl rfl rfl
  ⟨by decide, h.1, h.2.2.2.2⟩

/-- C9: `executeCommand` leaves the open connections and sessions as it
found them.  If the connection attempt fails, no event of the invocation
opens or closes anything.  If the connection is set up and the session is
not, the invocation ends with the one `client.Close()`, the connection being
open until then.  If both are set up, the invocation ends with the one
`session.Close()` followed by the one `client.Close()`, both being open
until then. -/
theorem C9_resources_released (r : Response) (server : Server) (command : String)
    (R : Resources) :
    R.after (executeCommand r server command) = R ∧
    (match r.dial, r.newSession with
     | .error _, _ =>
       (∀ e ∈ executeCommand r server command, ∀ R0 : Resources, R0.step e = R0) ∧
       (executeCommand r server command).countP Event.isNewSession = 0 ∧
       (executeCommand r server command).countP Event.isCloseSession = 0 ∧
       (executeCommand r server command).countP Event.isCloseClient = 0
     | .ok client, .error _ =>
       (executeCommand r server command).countP Event.isCloseClient = 1 ∧
       (executeCommand r server command).countP Event.isCloseSession = 0 ∧
       ∃ pre, executeCommand r server command = pre ++ [Event.closeClient client] ∧
         R.after pre = { clients := client :: R.clients, sessions := R.sessions }
     | .ok client, .ok session =>
       (executeCommand r server command).countP Event.isCloseClient = 1 ∧
       (executeCommand r server command).countP Event.isCloseSession = 1 ∧
       ∃ pre, executeCommand r server command =
           pre ++ [Event.closeSession session, Event.closeClient client] ∧
         R.after pre = { clients := client :: R.clients, sessions := session :: R.sessions }) := by
  cases hd : r.dial with
  | error err =>
    rw [executeCommand_dial_error r server command err hd]
    refine ⟨rfl, ?_, rfl, rfl, rfl⟩
    intro e he R0
    simp only [List.mem_cons, List.mem_singleton, List.not_mem_nil, or_false] at he
    rcases he with he | he <;> subst he <;> rfl
  | ok client =>
    cases hs : r.newSession with
    | error err =>
      rw [executeCommand_session_error r server command err client hd hs]
      refine ⟨?_, rfl, rfl, [_, _, _], rfl, rfl⟩
      simp [Resources.after, Resources.step]
    | ok session =>
      rw [executeCommand_connected r server command client session hd hs]
      have hpre : R.after
          ([ Event.dial "tcp" (server.Host ++ ":" ++ fmtInt server.Port) (clientConfigOf server)
              (.ok client),
            Event.newSession client (.ok session),
            Event.combinedOutput session command r.output r.runErr ] ++
          (resultBlock server.Host r).map Event.stdout) =
          { clients := client :: R.clients, sessions := session :: R.sessions } := by
        rw [after_append, after_stdout]
        rfl
      refine ⟨?_, ?_, ?_, _, rfl, hpre⟩
      · rw [after_append, hpre]
        simp [Resources.after, Resources.step]
      · simp [List.countP_append, List.countP_cons, Event.isCloseClient,
          countP_stdout Event.isCloseClient (fun _ => rfl)]
      · simp [List.countP_append, List.countP_cons, Event.isCloseSession,
          countP_stdout Event.isCloseSession (fun _ => rfl)]

/-- C10: `executeCommand` makes one connection attempt, its first event:
`ssh.Dial` on `tcp`, to the host, a colon and the port as a decimal numeral,
as the user of the server, with the password of the server as the only
authentication method, with a timeout of ten seconds, and with a host key
callback that accepts every key.  The attempt is the same for every command,
and its timeout is the only timeout the invocation hands to the transport. -/
theorem C10_connection_request (r : Response) (server : Server) (command : String) :
    (executeCommand r server command).head? =
      some (Event.dial "tcp" (server.Host ++ ":" ++ fmtInt server.Port)
        { User := server.User, Auth := [AuthMethod.Password server.Password],
          HostKeyCallback := HostKeyCallback.InsecureIgnoreHostKey,
          Timeout := 10 * Second } r.dial) ∧
    (executeCommand r server command).filter Event.isDial =
      [Event.dial "tcp" (server.Host ++ ":" ++ fmtInt server.Port)
        { User := server.User, Auth := [AuthMethod.Password server.Password],
          HostKeyCallback := HostKeyCallback.InsecureIgnoreHostKey,
          Timeout := 10 * Second } r.dial] ∧
    readInt (fmtInt server.Port).data = server.Port ∧
    (10 * Second : Duration) = 10 * 10 ^ 9 ∧
    (∀ hostname remote key : String,
      HostKeyCallback.check HostKeyCallback.InsecureIgnoreHostKey hostname remote key = none) ∧
    (∀ other : String,
      (executeCommand r server other).filter Event.isDial =
        (executeCommand r server command).filter Event.isDial) ∧
    (executeCommand r server command).filterMap Event.timeout = [10 * Second] := by
  have hfilter : ∀ c : String, (executeCommand r server c).filter Event.isDial =
      [Event.dial "tcp" (server.Host ++ ":" ++ fmtInt server.Port) (clientConfigOf server)
        r.dial] := by
    intro c
    cases hd : r.dial with
    | error err =>
      rw [executeCommand_dial_error r server c err hd]
      simp [Event.isDial]
    | ok client =>
      cases hs : r.newSession with
      | error err =>
        rw [executeCommand_session_error r server c err client hd hs]
        simp [Event.isDial]
      | ok session =>
        rw [executeCommand_connected r server c client session hd hs]
        simp [Event.isDial, List.filter_append, List.filter_map, Function.comp_def]
  refine ⟨?_, hfilter command, readInt_fmtInt server.Port, by decide, fun _ _ _ => rfl, ?_, ?_⟩
  · cases hd : r.dial with
    | error err => rw [executeCommand_dial_error r server command err hd]; rfl
    | ok client =>
      cases hs : r.newSession with
      | error err => rw [executeCommand_session_error r server command err client hd hs]; rfl
      | ok session => rw [executeCommand_connected r server command client session hd hs]; rfl
  · intro other
    rw [hfilter other, hfilter command]
  · cases hd : r.dial with
    | error err =>
      rw [executeCommand_dial_error r server command err hd]
      simp [Event.timeout, clientConfigOf]
    | ok client =>
      cases hs : r.newSession with
      | error err =>
        rw [executeCommand_session_error r server command err client hd hs]
        simp [Event.timeout, clientConfigOf]
      | ok session =>
        rw [executeCommand_connected r server command client session hd hs]
        simp [Event.timeout, clientConfigOf, List.filterMap_append, List.filterMap_map,
          Function.comp_def]

/-- C9 at a concrete input: with connection 7 and session 8 already open,
a successful invocation on `serverA` leaves exactly these open. -/
theorem C9_resources_released_witness :
    Resources.after { clients := [7], sessions := [8] }
        (executeCommand (threeTransport 0) serverA "hostname") =
      { clients := [7], sessions := [8] } :=
  (C9_resources_released (threeTransport 0) serverA "hostname"
    { clients := [7], sessions := [8] }).1

/-- C10 at a concrete input: the connection attempt for `serverB`. -/
theorem C10_connection_request_witness :
    (executeCommand (threeTransport 1) serverB "hostname").head? =
      some (Event.dial "tcp" (serverB.Host ++ ":" ++ fmtInt serverB.Port)
        { User := serverB.User, Auth := [AuthMethod.Password serverB.Password],
          HostKeyCallback := HostKeyCallback.InsecureIgnoreHostKey,
          Timeout := 10 * Second } (threeTransport 1).dial) :=
  (C10_connection_request (threeTransport 1) serverB "hostname").1

end Commander
